import Mathlib

/-!
Shallow embedding of `src/grpc/qabstractgrpcclient.cpp` from the QtProtobuf
repository (class `QAbstractGrpcClient` and its private part
`QAbstractGrpcClientPrivate`).

Modelling conventions:
* Thread identities are `Nat`; `QThread::currentThread()` becomes an explicit
  `currentThread` argument and the client's own `thread()` is the
  `thread` field of `ClientState`.
* `QByteArray` payloads are lists of bytes (`List Nat`).
* `std::shared_ptr` handles (`QGrpcStreamShared`, `QGrpcAsyncReplyShared`) are
  modelled as identifiers into per-kind heaps stored in the state, together
  with an explicit strong-reference count; weak references (the reconnection
  timer) store only the identifier and no count.
* Qt signal/slot connections become boolean flags on the heap entries; firing
  a signal whose connection flag is down (or whose object has been destroyed,
  strong count zero) runs no slot body.
* Emitting the facade's `error(status)` signal appends to `errorLog`; each
  call into the channel collaborator appends a `ChannelOp` to `channelLog`.
* `QMetaObject::invokeMethod(..., Qt::BlockingQueuedConnection, &result)` —
  the cross-thread relay — is modelled as a synchronous re-invocation of the
  same entry point with `currentThread` set to the owner thread, whose result
  is handed back to the foreign-thread caller.
-/

/-- Opaque byte payloads (`QByteArray`). -/
abbrev QByteArray := List Nat

/-- Status codes (`QGrpcStatus::StatusCode`): `Ok`, `Unknown`, and the
remaining channel-specific codes, opaque to the facade. -/
inductive StatusCode where
  | Ok : StatusCode
  | Unknown : StatusCode
  | Other : Nat → StatusCode
deriving DecidableEq, Repr

/-- Modelled from the spec: `QGrpcStatus` (header not in the source
fragment) is a value type `{code, message}`; per §3 it is immutable once
constructed. -/
structure QGrpcStatus where
  code : StatusCode
  message : String
deriving DecidableEq, Repr

/-- The channel collaborator (`QAbstractGrpcChannel`), reduced to its
interface: its owner-thread identity (`channel->thread()`), its serializer
(`channel->serializer()`), and the behaviour of its synchronous unary `call`
primitive, which fills the result bytes and returns a status. -/
structure GrpcChannel where
  thread : Nat
  serializerId : Nat
  callImpl : String → String → QByteArray → QGrpcStatus × QByteArray

/-- One stream handle object (`QGrpcStream`) on the heap: its identifying
`(method, arg)` pair, its handler list, the number of live strong
(`std::shared_ptr`) holders, and whether the facade's error / finished
connections on it are up. -/
structure StreamData where
  method : String
  arg : QByteArray
  handlers : List Nat
  strongCount : Nat
  errorConn : Bool
  finishedConn : Bool
deriving DecidableEq, Repr

/-- One async reply handle (`QGrpcAsyncReply`) on the heap: whether the
error / finished connections are up and whether the facade's closures still
hold a strong reference to the handle. -/
structure ReplyData where
  errorConn : Bool
  finishedConn : Bool
  facadeRef : Bool
deriving DecidableEq, Repr

/-- A pending `QTimer::singleShot` reconnection: it stores only the stream's
identifier (the weak reference) and the delay in milliseconds. -/
structure TimerRec where
  sid : Nat
  delay : Nat
deriving DecidableEq, Repr

/-- A call made into the channel collaborator, recorded in order. -/
inductive ChannelOp where
  | syncCallOp : String → String → QByteArray → ChannelOp
  | asyncCallOp : String → String → QByteArray → Nat → ChannelOp
  | subscribeOp : Nat → String → ChannelOp
deriving DecidableEq, Repr

/-- The facade's state: `QAbstractGrpcClientPrivate` (channel, service,
serializer, activeStreams) together with the heaps of live handle objects,
pending reconnection timers, the fresh-identifier counter, and the two
observation logs. -/
structure ClientState where
  thread : Nat
  service : String
  channel : Option GrpcChannel
  serializer : Nat
  activeStreams : List Nat
  streams : List (Nat × StreamData)
  replies : List (Nat × ReplyData)
  timers : List TimerRec
  nextId : Nat
  errorLog : List QGrpcStatus
  channelLog : List ChannelOp

/-- Association-list lookup by identifier (leftmost match). -/
def getKey {β : Type} : List (Nat × β) → Nat → Option β
  | [], _ => none
  | (k, v) :: rest, key => if k = key then some v else getKey rest key

/-- Association-list update in place (leftmost match; no entry added when the
key is absent). -/
def setKey {β : Type} : List (Nat × β) → Nat → β → List (Nat × β)
  | [], _, _ => []
  | (k, v) :: rest, key, val =>
      if k = key then (k, val) :: rest else (k, v) :: setKey rest key val

/-- Identity of a stream object as used by `QGrpcStream::operator==`: its
`(method, argument)` pair, or `none` when the identifier is dangling. -/
def streamKeyOf (streams : List (Nat × StreamData)) (i : Nat) :
    Option (String × QByteArray) :=
  (getKey streams i).map (fun d => (d.method, d.arg))

/-- Modelled from the spec: `QGrpcStream::operator==` (class not in the
source fragment); per §3 two stream handles are equivalent iff their method
and argument bytes are identical. `equivIn` lifts this to identifiers. -/
def equivIn (streams : List (Nat × StreamData)) (i j : Nat) : Bool :=
  match streamKeyOf streams i, streamKeyOf streams j with
  | some a, some b => a == b
  | _, _ => false

/-- The `std::find_if` scan of `activeStreams` performed by `subscribe`:
first identifier whose stream compares equal to the candidate's
`(method, argument)` pair. -/
def findEquiv (streams : List (Nat × StreamData)) (ma : String × QByteArray) :
    List Nat → Option Nat
  | [] => none
  | j :: rest =>
      match streamKeyOf streams j with
      | some mb => if mb == ma then some j else findEquiv streams ma rest
      | none => findEquiv streams ma rest

/-- The `find_if` + `erase` performed by the finished-path lambda: remove the
first identifier equivalent to `ma` and report which one was removed. -/
def eraseFirstEquiv (streams : List (Nat × StreamData))
    (ma : String × QByteArray) : List Nat → List Nat × Option Nat
  | [] => ([], none)
  | j :: rest =>
      match streamKeyOf streams j with
      | some mb =>
          if mb == ma then (rest, some j)
          else
            let r := eraseFirstEquiv streams ma rest
            (j :: r.1, r.2)
      | none =>
          let r := eraseFirstEquiv streams ma rest
          (j :: r.1, r.2)

/-- Remove the first occurrence of a number from a list. -/
def removeFirstNat : List Nat → Nat → List Nat
  | [], _ => []
  | j :: rest, i => if j = i then rest else j :: removeFirstNat rest i

/-- Remove the first pending timer for the given stream identifier. -/
def removeFirstTimer : List TimerRec → Nat → List TimerRec
  | [], _ => []
  | t :: rest, sid => if t.sid = sid then rest else t :: removeFirstTimer rest sid

/-- Whether a reconnection timer for the given stream is pending. -/
def hasTimer (ts : List TimerRec) (sid : Nat) : Bool :=
  ts.any (fun t => t.sid == sid)

/-- Emission of the facade's `error(status)` signal. -/
def emitError (st : ClientState) (s : QGrpcStatus) : ClientState :=
  { st with errorLog := st.errorLog ++ [s] }

/-- Update the stream object at identifier `i` in place (no effect when the
identifier is dangling). -/
def updStream (st : ClientState) (i : Nat) (g : StreamData → StreamData) :
    ClientState :=
  match getKey st.streams i with
  | some d => { st with streams := setKey st.streams i (g d) }
  | none => st

/-- Release one strong reference on a stream object. -/
def decRef (st : ClientState) (i : Nat) : ClientState :=
  updStream st i (fun d => { d with strongCount := d.strongCount - 1 })

/-- Embedding of `(*it)->addHandler(handler)`: append a handler to an
existing stream. -/
def addHandlerTo (st : ClientState) (i : Nat) (handler : Nat) : ClientState :=
  updStream st i (fun d => { d with handlers := d.handlers ++ [handler] })

/-- The facade right after construction
(`QAbstractGrpcClient::QAbstractGrpcClient`): no channel, the default
serializer obtained from the registry, and empty bookkeeping. -/
def initialState (thread : Nat) (service : String) (defaultSerializer : Nat) :
    ClientState :=
  { thread := thread, service := service, channel := none,
    serializer := defaultSerializer, activeStreams := [], streams := [],
    replies := [], timers := [], nextId := 0, errorLog := [],
    channelLog := [] }

/-- Embedding of `QAbstractGrpcClient::attachChannel`: throws
(`Except.error`) when the channel's thread differs from the calling thread,
otherwise stores the channel and adopts its serializer. -/
def attachChannel (st : ClientState) (currentThread : Nat)
    (ch : GrpcChannel) : Except String ClientState :=
  if ch.thread ≠ currentThread then
    Except.error "Call from another thread"
  else
    Except.ok { st with channel := some ch, serializer := ch.serializerId }

/-- Embedding of `QAbstractGrpcClient::call` (blocking overload): relay to the owner
thread when called from a foreign one; otherwise delegate to the channel (or
produce the no-channel status), emit `error` when the status is not `Ok`,
and return the status together with the (possibly filled) result bytes. -/
def callBlocking (st : ClientState) (currentThread : Nat) (method : String)
    (arg ret : QByteArray) : ClientState × QGrpcStatus × QByteArray :=
  if h : currentThread ≠ st.thread then
    callBlocking st st.thread method arg ret
  else
    match st.channel with
    | some ch =>
        let res := ch.callImpl method st.service arg
        let st1 := { st with
          channelLog := st.channelLog ++ [ChannelOp.syncCallOp method st.service arg] }
        if res.1.code ≠ StatusCode.Ok then (emitError st1 res.1, res.1, res.2)
        else (st1, res.1, res.2)
    | none =>
        let s : QGrpcStatus := ⟨StatusCode.Unknown, "No channel(s) attached."⟩
        (emitError st s, s, ret)
termination_by (if currentThread = st.thread then 0 else 1)
decreasing_by simp_all

/-- Embedding of `QAbstractGrpcClient::call` (async overload): relay from foreign
threads; with a channel attached, allocate a reply handle with both one-shot
completion connections wired and the facade holding a strong reference, and
start the call on the channel; with no channel, emit the error and return a
null handle. -/
def callAsync (st : ClientState) (currentThread : Nat) (method : String)
    (arg : QByteArray) : ClientState × Option Nat :=
  if h : currentThread ≠ st.thread then
    callAsync st st.thread method arg
  else
    match st.channel with
    | some _ =>
        let rid := st.nextId
        ({ st with
            replies := st.replies ++
              [(rid, { errorConn := true, finishedConn := true, facadeRef := true })],
            nextId := rid + 1,
            channelLog := st.channelLog ++
              [ChannelOp.asyncCallOp method st.service arg rid] },
          some rid)
    | none =>
        (emitError st ⟨StatusCode.Unknown, "No channel(s) attached."⟩, none)
termination_by (if currentThread = st.thread then 0 else 1)
decreasing_by simp_all

/-- Embedding of `QAbstractGrpcClient::subscribe`: relay from foreign threads; with a
channel attached, build a candidate stream for `(method, arg)` and scan
`activeStreams` for an equivalent one — if found, add the handler to the
existing stream and return it (the candidate is discarded, never subscribed);
otherwise wire the error and finished connections on the new stream (four
strong holders: the returned handle, the registry entry, and the two
connection closures), subscribe it through the channel and append it to
`activeStreams`. With no channel, emit the error and return a null handle. -/
def subscribe (st : ClientState) (currentThread : Nat) (method : String)
    (arg : QByteArray) (handler : Nat) : ClientState × Option Nat :=
  if h : currentThread ≠ st.thread then
    subscribe st st.thread method arg handler
  else
    match st.channel with
    | some _ =>
        match findEquiv st.streams (method, arg) st.activeStreams with
        | some j => (addHandlerTo st j handler, some j)
        | none =>
            let sid := st.nextId
            let d : StreamData :=
              { method := method, arg := arg, handlers := [handler],
                strongCount := 4, errorConn := true, finishedConn := true }
            ({ st with
                streams := st.streams ++ [(sid, d)],
                nextId := sid + 1,
                channelLog := st.channelLog ++ [ChannelOp.subscribeOp sid st.service],
                activeStreams := st.activeStreams ++ [sid] },
              some sid)
    | none =>
        (emitError st ⟨StatusCode.Unknown, "No channel(s) attached."⟩, none)
termination_by (if currentThread = st.thread then 0 else 1)
decreasing_by simp_all

/-- The error-path lambda of `subscribe`: when the stream is alive and its
error connection is up, emit the facade's `error(status)` and schedule a
one-shot reconnection timer after 1000 ms that captures only a weak
reference to the stream. -/
def fireStreamError (st : ClientState) (sid : Nat) (status : QGrpcStatus) :
    ClientState :=
  match getKey st.streams sid with
  | some d =>
      if d.strongCount ≠ 0 ∧ d.errorConn then
        let st1 := emitError st status
        { st1 with timers := st1.timers ++ [⟨sid, 1000⟩] }
      else st
  | none => st

/-- The `QTimer::singleShot` callback: consume one pending timer for `sid`;
if locking the weak reference succeeds (the stream still has a strong
holder), issue exactly one resubscribe call to the channel, otherwise do
nothing. -/
def fireTimer (st : ClientState) (sid : Nat) : ClientState :=
  if hasTimer st.timers sid then
    let st1 := { st with timers := removeFirstTimer st.timers sid }
    match getKey st1.streams sid with
    | some d =>
        if d.strongCount ≠ 0 then
          { st1 with channelLog := st1.channelLog ++ [ChannelOp.subscribeOp sid st1.service] }
        else st1
    | none => st1
  else st

/-- The finished-path lambda of `subscribe`: when the stream is alive and its
finished connection is up, erase the first equivalent entry from
`activeStreams` (releasing that entry's strong reference), disconnect both
connections (the destroyed error closure releases its strong reference), and
reset the finished closure's own captured strong reference. -/
def fireStreamFinished (st : ClientState) (sid : Nat) : ClientState :=
  match getKey st.streams sid with
  | some d =>
      if d.strongCount ≠ 0 ∧ d.finishedConn then
        let r := eraseFirstEquiv st.streams (d.method, d.arg) st.activeStreams
        let st1 := { st with activeStreams := r.1 }
        let st2 := match r.2 with
                   | some j => decRef st1 j
                   | none => st1
        let st3 := updStream st2 sid
          (fun d' => { d' with errorConn := false, finishedConn := false })
        decRef (decRef st3 sid) sid
      else st
  | none => st

/-- An external holder of a stream handle drops its strong reference. -/
def callerRelease (st : ClientState) (sid : Nat) : ClientState :=
  decRef st sid

/-- The error-path lambda wired by the async `call`: when the reply's error
connection is up, emit the facade's `error(status)`, disconnect both
completion connections and release the facade's strong reference. -/
def fireReplyError (st : ClientState) (rid : Nat) (status : QGrpcStatus) :
    ClientState :=
  match getKey st.replies rid with
  | some r =>
      if r.errorConn then
        let st1 := emitError st status
        { st1 with replies := setKey st1.replies rid ⟨false, false, false⟩ }
      else st
  | none => st

/-- The finished-path lambda wired by the async `call`: when the reply's
finished connection is up, disconnect both completion connections and
release the facade's strong reference. -/
def fireReplyFinished (st : ClientState) (rid : Nat) : ClientState :=
  match getKey st.replies rid with
  | some r =>
      if r.finishedConn then
        { st with replies := setKey st.replies rid ⟨false, false, false⟩ }
      else st
  | none => st

/-- One observable operation on the facade: an entry-point invocation
(tagged with the calling thread), a handle-lifecycle event delivered by the
channel on the owner thread, a timer expiry, or an external holder dropping
a stream reference. -/
inductive FacadeOp where
  | attach : Nat → GrpcChannel → FacadeOp
  | callB : Nat → String → QByteArray → QByteArray → FacadeOp
  | callA : Nat → String → QByteArray → FacadeOp
  | sub : Nat → String → QByteArray → Nat → FacadeOp
  | strError : Nat → QGrpcStatus → FacadeOp
  | strFinished : Nat → FacadeOp
  | timerFire : Nat → FacadeOp
  | release : Nat → FacadeOp
  | replyErr : Nat → QGrpcStatus → FacadeOp
  | replyFin : Nat → FacadeOp

/-- State transition of the facade under one operation (return values
projected away; a thrown `attachChannel` leaves the state unchanged). -/
def step (st : ClientState) : FacadeOp → ClientState
  | FacadeOp.attach ct ch =>
      match attachChannel st ct ch with
      | Except.ok st' => st'
      | Except.error _ => st
  | FacadeOp.callB ct m a r => (callBlocking st ct m a r).1
  | FacadeOp.callA ct m a => (callAsync st ct m a).1
  | FacadeOp.sub ct m a hd => (subscribe st ct m a hd).1
  | FacadeOp.strError sid s => fireStreamError st sid s
  | FacadeOp.strFinished sid => fireStreamFinished st sid
  | FacadeOp.timerFire sid => fireTimer st sid
  | FacadeOp.release sid => callerRelease st sid
  | FacadeOp.replyErr rid s => fireReplyError st rid s
  | FacadeOp.replyFin rid => fireReplyFinished st rid

/-- Run a sequence of facade operations from a state. -/
def run (st : ClientState) : List FacadeOp → ClientState
  | [] => st
  | op :: ops => run (step st op) ops

/-- The registry invariant of §3: `activeStreams` never holds two equivalent
stream handles at the same time. -/
def RegistryOk (st : ClientState) : Prop :=
  List.Pairwise (fun i j => equivIn st.streams i j = false) st.activeStreams

/-- Every heap identifier is below the fresh-identifier counter. -/
def KeysBounded (st : ClientState) : Prop :=
  ∀ k ∈ st.streams.map Prod.fst, k < st.nextId

/-- Every registry identifier is below the fresh-identifier counter. -/
def ActiveBounded (st : ClientState) : Prop :=
  ∀ i ∈ st.activeStreams, i < st.nextId

/-- The inductive invariant carried through every operation. -/
def FacadeInv (st : ClientState) : Prop :=
  KeysBounded st ∧ ActiveBounded st ∧ RegistryOk st

/-- A concrete channel living on thread 0 whose synchronous call succeeds. -/
def exSerOk : GrpcChannel := ⟨0, 7, fun _ _ _ => (⟨StatusCode.Ok, "fine"⟩, [9, 9])⟩

/-- A concrete channel living on thread 0 whose synchronous call fails with a
channel-specific code. -/
def exSerErr : GrpcChannel := ⟨0, 7, fun _ _ _ => (⟨StatusCode.Other 3, "boom"⟩, [4])⟩

/-- A concrete channel living on thread 1 (different from the facade's owner
thread of the example states). -/
def exChFar : GrpcChannel := ⟨1, 7, fun _ _ _ => (⟨StatusCode.Ok, ""⟩, [])⟩

/-- A freshly constructed facade on thread 0, no channel attached. -/
def exSt0 : ClientState := initialState 0 "svc" 5

/-- The example facade with the succeeding channel attached. -/
def exStOk : ClientState := { exSt0 with channel := some exSerOk }

/-- The example facade with the failing channel attached. -/
def exStErr : ClientState := { exSt0 with channel := some exSerErr }

/-- The example facade with one active stream for ("m", [1]) in the registry. -/
def exStOneStream : ClientState :=
  { exStOk with
      activeStreams := [0],
      streams := [(0, ⟨"m", [1], [11], 4, true, true⟩)],
      nextId := 1 }

/-- The example facade with one wired async reply handle. -/
def exStReply : ClientState := { exStOk with replies := [(3, ⟨true, true, true⟩)] }

/-- The example facade with one active stream holding a single strong
reference and one pending reconnection timer. -/
def exStErrStream : ClientState :=
  { exStOk with
      activeStreams := [0],
      streams := [(0, ⟨"m", [1], [11], 1, true, true⟩)],
      timers := [⟨0, 1000⟩],
      nextId := 1 }

/-- Invoking the blocking call from any thread equals invoking it on the
owner thread: the foreign branch re-invokes through the blocking queued
relay. -/
theorem callBlocking_relay (st : ClientState) (ct : Nat) (m : String)
    (a ret : QByteArray) :
    callBlocking st ct m a ret = callBlocking st st.thread m a ret := by
  by_cases h : ct = st.thread
  · rw [h]
  · rw [callBlocking]
    simp [h]

/-- Relay elimination for the async call. -/
theorem callAsync_relay (st : ClientState) (ct : Nat) (m : String)
    (a : QByteArray) :
    callAsync st ct m a = callAsync st st.thread m a := by
  by_cases h : ct = st.thread
  · rw [h]
  · rw [callAsync]
    simp [h]

/-- Relay elimination for subscribe. -/
theorem subscribe_relay (st : ClientState) (ct : Nat) (m : String)
    (a : QByteArray) (hd : Nat) :
    subscribe st ct m a hd = subscribe st st.thread m a hd := by
  by_cases h : ct = st.thread
  · rw [h]
  · rw [subscribe]
    simp [h]

/-- C2: with no channel attached, all three entry points are total and
degrade gracefully from any calling thread: the blocking call returns
`Status{Unknown, "No channel(s) attached."}` and leaves the result bytes
untouched, the async call returns a null reply handle, subscribe returns a
null stream handle, and each of the three raises exactly one error
notification carrying that status. -/
theorem noChannelDegradesGracefully (st : ClientState) (ct : Nat) (m : String)
    (a ret : QByteArray) (hd : Nat) (hch : st.channel = none) :
    (callBlocking st ct m a ret).2.1
      = ⟨StatusCode.Unknown, "No channel(s) attached."⟩
    ∧ (callBlocking st ct m a ret).2.2 = ret
    ∧ (callBlocking st ct m a ret).1.errorLog
        = st.errorLog ++ [⟨StatusCode.Unknown, "No channel(s) attached."⟩]
    ∧ (callAsync st ct m a).2 = none
    ∧ (callAsync st ct m a).1.errorLog
        = st.errorLog ++ [⟨StatusCode.Unknown, "No channel(s) attached."⟩]
    ∧ (subscribe st ct m a hd).2 = none
    ∧ (subscribe st ct m a hd).1.errorLog
        = st.errorLog ++ [⟨StatusCode.Unknown, "No channel(s) attached."⟩] := by
  rw [callBlocking_relay, callAsync_relay, subscribe_relay]
  rw [callBlocking, callAsync, subscribe]
  simp [hch, emitError]

/-- Witness for C2 at a concrete channel-less facade. -/
theorem noChannelDegradesGracefully_witness :
    exSt0.channel = none
    ∧ ((callBlocking exSt0 3 "m" [1] [2]).2.1
          = ⟨StatusCode.Unknown, "No channel(s) attached."⟩
      ∧ (callBlocking exSt0 3 "m" [1] [2]).2.2 = [2]
      ∧ (callBlocking exSt0 3 "m" [1] [2]).1.errorLog
          = exSt0.errorLog ++ [⟨StatusCode.Unknown, "No channel(s) attached."⟩]
      ∧ (callAsync exSt0 3 "m" [1]).2 = none
      ∧ (callAsync exSt0 3 "m" [1]).1.errorLog
          = exSt0.errorLog ++ [⟨StatusCode.Unknown, "No channel(s) attached."⟩]
      ∧ (subscribe exSt0 3 "m" [1] 11).2 = none
      ∧ (subscribe exSt0 3 "m" [1] 11).1.errorLog
          = exSt0.errorLog ++ [⟨StatusCode.Unknown, "No channel(s) attached."⟩]) :=
  ⟨rfl, noChannelDegradesGracefully exSt0 3 "m" [1] [2] 11 rfl⟩

/-- C6 counterexample: `attachChannel` compares the calling thread against
the channel's thread, not against the facade's owner thread. With the
facade owned by thread 0 and the channel living on thread 1, the call from
foreign thread 1 succeeds (no throw) and the call from the owner thread 0
throws. -/
theorem attachChannelOwnerThreadCounterexample :
    (1 ≠ exSt0.thread
      ∧ attachChannel exSt0 1 exChFar
          = Except.ok { exSt0 with channel := some exChFar,
                                   serializer := exChFar.serializerId })
    ∧ (0 = exSt0.thread
      ∧ attachChannel exSt0 0 exChFar = Except.error "Call from another thread") :=
  ⟨⟨by decide, rfl⟩, ⟨rfl, rfl⟩⟩

/-- C6 (amended): `attachChannel` throws exactly when invoked from a thread
other than the channel's thread; when invoked on the channel's thread it
stores the channel reference and adopts the channel's serializer. -/
theorem attachChannelChecksChannelThread (st : ClientState) (ct : Nat)
    (ch : GrpcChannel) :
    (ct ≠ ch.thread →
      attachChannel st ct ch = Except.error "Call from another thread")
    ∧ (ct = ch.thread →
      attachChannel st ct ch
        = Except.ok { st with channel := some ch,
                              serializer := ch.serializerId }) := by
  constructor
  · intro h
    simp [attachChannel, Ne.symm h]
  · intro h
    simp [attachChannel, h]

/-- Witness for the amended C6, exercising both the throwing and the
successful branch at concrete inputs. -/
theorem attachChannelChecksChannelThread_witness :
    attachChannel exSt0 0 exChFar = Except.error "Call from another thread"
    ∧ attachChannel exSt0 1 exChFar
        = Except.ok { exSt0 with channel := some exChFar,
                                 serializer := exChFar.serializerId } :=
  ⟨(attachChannelChecksChannelThread exSt0 0 exChFar).1 (by decide),
   (attachChannelChecksChannelThread exSt0 1 exChFar).2 (by decide)⟩

/-- C7: an invocation of any of the three entry points from a foreign
thread produces exactly the state and return value of the same invocation
made directly on the owner thread (the blocking queued relay re-executes it
there and hands the result back). -/
theorem foreignThreadRelayEquivalence (st : ClientState) (ct : Nat)
    (m : String) (a ret : QByteArray) (hd : Nat) (h : ct ≠ st.thread) :
    callBlocking st ct m a ret = callBlocking st st.thread m a ret
    ∧ callAsync st ct m a = callAsync st st.thread m a
    ∧ subscribe st ct m a hd = subscribe st st.thread m a hd :=
  ⟨callBlocking_relay st ct m a ret, callAsync_relay st ct m a,
   subscribe_relay st ct m a hd⟩

/-- Witness for C7 at a concrete foreign thread. -/
theorem foreignThreadRelayEquivalence_witness :
    (3 : Nat) ≠ exSt0.thread
    ∧ (callBlocking exSt0 3 "m" [1] [2] = callBlocking exSt0 exSt0.thread "m" [1] [2]
      ∧ callAsync exSt0 3 "m" [1] = callAsync exSt0 exSt0.thread "m" [1]
      ∧ subscribe exSt0 3 "m" [1] 11 = subscribe exSt0 exSt0.thread "m" [1] 11) :=
  ⟨by decide, foreignThreadRelayEquivalence exSt0 3 "m" [1] [2] 11 (by decide)⟩

/-- C8: a blocking call on the owner thread with a channel attached
delegates synchronously to the channel's call primitive, returns exactly its
status and result bytes, and emits the error notification carrying that
status if and only if the status code is not `Ok`. -/
theorem ownerCallDelegatesAndNotifies (st : ClientState) (ch : GrpcChannel)
    (m : String) (a ret : QByteArray) (hch : st.channel = some ch) :
    (callBlocking st st.thread m a ret).2.1 = (ch.callImpl m st.service a).1
    ∧ (callBlocking st st.thread m a ret).2.2 = (ch.callImpl m st.service a).2
    ∧ ((ch.callImpl m st.service a).1.code ≠ StatusCode.Ok →
        (callBlocking st st.thread m a ret).1.errorLog
          = st.errorLog ++ [(ch.callImpl m st.service a).1])
    ∧ ((ch.callImpl m st.service a).1.code = StatusCode.Ok →
        (callBlocking st st.thread m a ret).1.errorLog = st.errorLog) := by
  rw [callBlocking]
  simp only [ne_eq, not_true_eq_false, reduceDIte, hch]
  constructor
  · split <;> simp [emitError]
  constructor
  · split <;> simp [emitError]
  constructor
  · intro hne
    split
    · simp [emitError]
    · simp_all
  · intro heq
    split
    · simp_all
    · simp [emitError]

/-- Witness for C8: a failing channel emits the notification, a succeeding
one does not. -/
theorem ownerCallDelegatesAndNotifies_witness :
    (exStErr.channel = some exSerErr
      ∧ (callBlocking exStErr 0 "m" [1] [7]).1.errorLog
          = exStErr.errorLog ++ [⟨StatusCode.Other 3, "boom"⟩]
      ∧ (callBlocking exStErr 0 "m" [1] [7]).2.1 = ⟨StatusCode.Other 3, "boom"⟩)
    ∧ (exStOk.channel = some exSerOk
      ∧ (callBlocking exStOk 0 "m" [1] [7]).1.errorLog = exStOk.errorLog
      ∧ (callBlocking exStOk 0 "m" [1] [7]).2.2 = [9, 9]) :=
  ⟨⟨rfl,
    (ownerCallDelegatesAndNotifies exStErr exSerErr "m" [1] [7] rfl).2.2.1 (by decide),
    (ownerCallDelegatesAndNotifies exStErr exSerErr "m" [1] [7] rfl).1⟩,
   ⟨rfl,
    (ownerCallDelegatesAndNotifies exStOk exSerOk "m" [1] [7] rfl).2.2.2 (by decide),
    (ownerCallDelegatesAndNotifies exStOk exSerOk "m" [1] [7] rfl).2.1⟩⟩

/-- C10: the blocking call, on every path (relay, no channel, channel `Ok`,
channel non-`Ok`), leaves the facade's own fields — channel, serializer,
service and the active-stream registry — unchanged. -/
theorem callBlockingFramePreserved (st : ClientState) (ct : Nat) (m : String)
    (a ret : QByteArray) :
    (callBlocking st ct m a ret).1.channel = st.channel
    ∧ (callBlocking st ct m a ret).1.serializer = st.serializer
    ∧ (callBlocking st ct m a ret).1.service = st.service
    ∧ (callBlocking st ct m a ret).1.activeStreams = st.activeStreams := by
  rw [callBlocking_relay]
  rw [callBlocking]
  simp only [ne_eq, not_true_eq_false, reduceDIte]
  split
  · split <;> simp [emitError]
  · simp [emitError]

/-- Updating an association list at a present key makes lookup return the
new value. -/
theorem getKey_setKey_same {β : Type} (l : List (Nat × β)) (k : Nat) (v w : β)
    (h : getKey l k = some v) : getKey (setKey l k w) k = some w := by
  induction l with
  | nil => simp [getKey] at h
  | cons p rest ih =>
      obtain ⟨pk, pv⟩ := p
      by_cases hk : pk = k
      · subst hk
        simp [getKey, setKey]
      · simp only [getKey, setKey, if_neg hk] at h ⊢
        exact ih h

/-- Updating an association list does not affect lookups at other keys. -/
theorem getKey_setKey_ne {β : Type} (l : List (Nat × β)) (i k : Nat) (w : β)
    (h : i ≠ k) : getKey (setKey l k w) i = getKey l i := by
  induction l with
  | nil => simp [getKey, setKey]
  | cons p rest ih =>
      obtain ⟨pk, pv⟩ := p
      by_cases hk : pk = k
      · subst hk
        have : pk ≠ i := fun hh => h (hh ▸ rfl)
        simp [getKey, setKey, this]
      · simp only [setKey, if_neg hk, getKey]
        by_cases hki : pk = i
        · simp [hki]
        · simp [hki, ih]

/-- Updating an association list preserves its key sequence. -/
theorem keys_setKey {β : Type} (l : List (Nat × β)) (k : Nat) (w : β) :
    (setKey l k w).map Prod.fst = l.map Prod.fst := by
  induction l with
  | nil => simp [setKey]
  | cons p rest ih =>
      obtain ⟨pk, pv⟩ := p
      by_cases hk : pk = k
      · simp [setKey, hk]
      · simp [setKey, hk, ih]

/-- Appending a fresh entry does not affect lookups at other keys. -/
theorem getKey_append_ne {β : Type} (l : List (Nat × β)) (n i : Nat) (v : β)
    (h : i ≠ n) : getKey (l ++ [(n, v)]) i = getKey l i := by
  induction l with
  | nil =>
      have : n ≠ i := fun hh => h (hh ▸ rfl)
      simp [getKey, this]
  | cons p rest ih =>
      obtain ⟨pk, pv⟩ := p
      by_cases hk : pk = i
      · simp [getKey, hk]
      · simp [getKey, hk, ih]

/-- Lookup of a key above every key of the list fails. -/
theorem getKey_none_of_bound {β : Type} (l : List (Nat × β)) (n : Nat)
    (h : ∀ k ∈ l.map Prod.fst, k < n) : getKey l n = none := by
  induction l with
  | nil => simp [getKey]
  | cons p rest ih =>
      obtain ⟨pk, pv⟩ := p
      have hlt : pk < n := h pk (by simp)
      have : pk ≠ n := Nat.ne_of_lt hlt
      simp only [getKey, if_neg this]
      exact ih (fun k hk => h k (by simp [hk]))

/-- Appending an absent key makes lookup of that key return the new value. -/
theorem getKey_append_self {β : Type} (l : List (Nat × β)) (n : Nat) (v : β)
    (h : getKey l n = none) : getKey (l ++ [(n, v)]) n = some v := by
  induction l with
  | nil => simp [getKey]
  | cons p rest ih =>
      obtain ⟨pk, pv⟩ := p
      by_cases hk : pk = n
      · simp [getKey, hk] at h
      · simp only [getKey, if_neg hk] at h
        simp only [List.cons_append, getKey, if_neg hk]
        exact ih h

/-- An in-place update that keeps method and argument preserves every stream
identity. -/
theorem streamKeyOf_setKey_preserve (l : List (Nat × StreamData)) (k : Nat)
    (d d' : StreamData) (hl : getKey l k = some d)
    (hm : d'.method = d.method) (ha : d'.arg = d.arg) (i : Nat) :
    streamKeyOf (setKey l k d') i = streamKeyOf l i := by
  by_cases hik : i = k
  · subst hik
    rw [streamKeyOf, streamKeyOf, getKey_setKey_same l i d d' hl, hl]
    simp [hm, ha]
  · rw [streamKeyOf, streamKeyOf, getKey_setKey_ne l i k d' hik]

/-- When the subscribe scan finds nothing, no registry entry carries the
candidate's identity. -/
theorem findEquiv_none_spec (streams : List (Nat × StreamData))
    (ma : String × QByteArray) (L : List Nat)
    (h : findEquiv streams ma L = none) :
    ∀ j ∈ L, ∀ mb, streamKeyOf streams j = some mb → (mb == ma) = false := by
  induction L with
  | nil => simp
  | cons j rest ih =>
      intro x hx mb hmb
      rw [findEquiv] at h
      rcases List.mem_cons.mp hx with hxj | hxr
      · subst hxj
        rw [hmb] at h
        by_cases hb : (mb == ma) = true
        · simp [hb] at h
        · simpa using hb
      · rcases hsj : streamKeyOf streams j with _ | mj
        · rw [hsj] at h
          simp only [] at h
          exact ih h x hxr mb hmb
        · rw [hsj] at h
          by_cases hb : (mj == ma) = true
          · simp [hb] at h
          · simp only [if_neg hb] at h
            exact ih h x hxr mb hmb

/-- C1: a subscribe on the owner thread with a channel attached that finds
an equivalent stream in the registry returns that existing handle with the
new handler appended to its handler list; no call reaches the channel, no
timer is scheduled, the registry is unchanged and no new handle object (or
error / finished wiring) is created — the candidate is discarded. -/
theorem subscribeDedupReusesExisting (st : ClientState) (ch : GrpcChannel)
    (m : String) (a : QByteArray) (hd j : Nat) (d : StreamData)
    (hch : st.channel = some ch)
    (hfind : findEquiv st.streams (m, a) st.activeStreams = some j)
    (hj : getKey st.streams j = some d) :
    (subscribe st st.thread m a hd).2 = some j
    ∧ getKey (subscribe st st.thread m a hd).1.streams j
        = some { d with handlers := d.handlers ++ [hd] }
    ∧ (subscribe st st.thread m a hd).1.streams.map Prod.fst
        = st.streams.map Prod.fst
    ∧ (subscribe st st.thread m a hd).1.channelLog = st.channelLog
    ∧ (subscribe st st.thread m a hd).1.timers = st.timers
    ∧ (subscribe st st.thread m a hd).1.activeStreams = st.activeStreams := by
  have hsub : subscribe st st.thread m a hd = (addHandlerTo st j hd, some j) := by
    rw [subscribe]
    simp only [ne_eq, not_true_eq_false, reduceDIte, hch, hfind]
  have hupd : addHandlerTo st j hd
      = { st with streams := setKey st.streams j { d with handlers := d.handlers ++ [hd] } } := by
    rw [addHandlerTo, updStream, hj]
  rw [hsub, hupd]
  refine ⟨rfl, ?_, ?_, rfl, rfl, rfl⟩
  · exact getKey_setKey_same st.streams j d _ hj
  · exact keys_setKey st.streams j _

/-- Witness for C1: subscribing a second handler to an already-active
("m", [1]) stream. -/
theorem subscribeDedupReusesExisting_witness :
    exStOneStream.channel = some exSerOk
    ∧ findEquiv exStOneStream.streams ("m", [1]) exStOneStream.activeStreams = some 0
    ∧ getKey exStOneStream.streams 0 = some ⟨"m", [1], [11], 4, true, true⟩
    ∧ ((subscribe exStOneStream exStOneStream.thread "m" [1] 12).2 = some 0
      ∧ getKey (subscribe exStOneStream exStOneStream.thread "m" [1] 12).1.streams 0
          = some ⟨"m", [1], [11, 12], 4, true, true⟩
      ∧ (subscribe exStOneStream exStOneStream.thread "m" [1] 12).1.streams.map Prod.fst
          = exStOneStream.streams.map Prod.fst
      ∧ (subscribe exStOneStream exStOneStream.thread "m" [1] 12).1.channelLog
          = exStOneStream.channelLog
      ∧ (subscribe exStOneStream exStOneStream.thread "m" [1] 12).1.timers
          = exStOneStream.timers
      ∧ (subscribe exStOneStream exStOneStream.thread "m" [1] 12).1.activeStreams
          = exStOneStream.activeStreams) :=
  ⟨rfl, by decide, by decide,
   subscribeDedupReusesExisting exStOneStream exSerOk "m" [1] 12 0
     ⟨"m", [1], [11], 4, true, true⟩ rfl (by decide) (by decide)⟩

/-- C5: for a wired async reply handle, whichever completion path fires
first disconnects both paths and releases the facade's strong reference,
and the other path is then a strict no-op; the error path additionally
forwards its status to the error notification exactly once. -/
theorem replyCompletesExactlyOnce (st : ClientState) (rid : Nat)
    (s1 s2 : QGrpcStatus) (r : ReplyData)
    (hr : getKey st.replies rid = some r)
    (he : r.errorConn = true) (hf : r.finishedConn = true) :
    (fireReplyError st rid s1).errorLog = st.errorLog ++ [s1]
    ∧ getKey (fireReplyError st rid s1).replies rid = some ⟨false, false, false⟩
    ∧ fireReplyFinished (fireReplyError st rid s1) rid = fireReplyError st rid s1
    ∧ (fireReplyFinished st rid).errorLog = st.errorLog
    ∧ getKey (fireReplyFinished st rid).replies rid = some ⟨false, false, false⟩
    ∧ fireReplyError (fireReplyFinished st rid) rid s2 = fireReplyFinished st rid := by
  have herr : fireReplyError st rid s1
      = { emitError st s1 with replies := setKey st.replies rid ⟨false, false, false⟩ } := by
    rw [fireReplyError, hr]
    simp [he, emitError]
  have hfin : fireReplyFinished st rid
      = { st with replies := setKey st.replies rid ⟨false, false, false⟩ } := by
    rw [fireReplyFinished, hr]
    simp [hf]
  have hget1 : getKey (fireReplyError st rid s1).replies rid
      = some ⟨false, false, false⟩ := by
    rw [herr]
    exact getKey_setKey_same st.replies rid r _ hr
  have hget2 : getKey (fireReplyFinished st rid).replies rid
      = some ⟨false, false, false⟩ := by
    rw [hfin]
    exact getKey_setKey_same st.replies rid r _ hr
  refine ⟨?_, hget1, ?_, ?_, hget2, ?_⟩
  · rw [herr]
    simp [emitError]
  · rw [fireReplyFinished, hget1]
    simp
  · rw [hfin]
  · rw [fireReplyError, hget2]
    simp

/-- Witness for C5 on a concrete wired reply handle. -/
theorem replyCompletesExactlyOnce_witness :
    getKey exStReply.replies 3 = some ⟨true, true, true⟩
    ∧ ((fireReplyError exStReply 3 ⟨StatusCode.Unknown, "x"⟩).errorLog
          = exStReply.errorLog ++ [⟨StatusCode.Unknown, "x"⟩]
      ∧ getKey (fireReplyError exStReply 3 ⟨StatusCode.Unknown, "x"⟩).replies 3
          = some ⟨false, false, false⟩
      ∧ fireReplyFinished (fireReplyError exStReply 3 ⟨StatusCode.Unknown, "x"⟩) 3
          = fireReplyError exStReply 3 ⟨StatusCode.Unknown, "x"⟩
      ∧ (fireReplyFinished exStReply 3).errorLog = exStReply.errorLog
      ∧ getKey (fireReplyFinished exStReply 3).replies 3 = some ⟨false, false, false⟩
      ∧ fireReplyError (fireReplyFinished exStReply 3) 3 ⟨StatusCode.Unknown, "y"⟩
          = fireReplyFinished exStReply 3) :=
  ⟨by decide,
   replyCompletesExactlyOnce exStReply 3 ⟨StatusCode.Unknown, "x"⟩
     ⟨StatusCode.Unknown, "y"⟩ ⟨true, true, true⟩ (by decide) rfl rfl⟩

/-- C4: when a live stream's error connection fires, the facade emits the
error notification and schedules a reconnection after the fixed 1000 ms
delay; the scheduled entry holds only the stream identifier (the heap, and
so every strong count, is untouched — a weak reference). When a pending
timer for the stream fires, locking the weak reference decides the outcome:
an unreachable handle (gone or with zero strong holders) causes no channel
call at all, a reachable one causes exactly one resubscribe call for that
same handle. -/
theorem errorSchedulesWeakReconnect (st : ClientState) (sid : Nat)
    (status : QGrpcStatus) (d : StreamData)
    (hd : getKey st.streams sid = some d)
    (halive : d.strongCount ≠ 0) (hconn : d.errorConn = true) :
    (fireStreamError st sid status).timers = st.timers ++ [⟨sid, 1000⟩]
    ∧ (fireStreamError st sid status).streams = st.streams
    ∧ (fireStreamError st sid status).errorLog = st.errorLog ++ [status]
    ∧ (∀ st' : ClientState, hasTimer st'.timers sid = true →
        (getKey st'.streams sid = none →
          (fireTimer st' sid).channelLog = st'.channelLog)
        ∧ (∀ d', getKey st'.streams sid = some d' → d'.strongCount = 0 →
            (fireTimer st' sid).channelLog = st'.channelLog)
        ∧ (∀ d', getKey st'.streams sid = some d' → d'.strongCount ≠ 0 →
            (fireTimer st' sid).channelLog
              = st'.channelLog ++ [ChannelOp.subscribeOp sid st'.service])) := by
  have hfe : fireStreamError st sid status
      = { emitError st status with timers := st.timers ++ [⟨sid, 1000⟩] } := by
    rw [fireStreamError, hd]
    simp [halive, hconn, emitError]
  refine ⟨?_, ?_, ?_, ?_⟩
  · rw [hfe]
  · rw [hfe]
    simp [emitError]
  · rw [hfe]
    simp [emitError]
  · intro st' htimer
    refine ⟨?_, ?_, ?_⟩
    · intro hnone
      rw [fireTimer, if_pos htimer]
      simp only [hnone]
    · intro d' hd' hzero
      rw [fireTimer, if_pos htimer]
      simp only [hd']
      simp [hzero]
    · intro d' hd' hnz
      rw [fireTimer, if_pos htimer]
      simp only [hd']
      simp [hnz]

/-- Witness for C4 on a concrete erroring stream with one strong holder. -/
theorem errorSchedulesWeakReconnect_witness :
    getKey exStErrStream.streams 0 = some ⟨"m", [1], [11], 1, true, true⟩
    ∧ (1 : Nat) ≠ 0
    ∧ ((fireStreamError exStErrStream 0 ⟨StatusCode.Unknown, "e"⟩).timers
          = exStErrStream.timers ++ [⟨0, 1000⟩]
      ∧ (fireStreamError exStErrStream 0 ⟨StatusCode.Unknown, "e"⟩).streams
          = exStErrStream.streams
      ∧ (fireStreamError exStErrStream 0 ⟨StatusCode.Unknown, "e"⟩).errorLog
          = exStErrStream.errorLog ++ [⟨StatusCode.Unknown, "e"⟩]
      ∧ (∀ st' : ClientState, hasTimer st'.timers 0 = true →
          (getKey st'.streams 0 = none →
            (fireTimer st' 0).channelLog = st'.channelLog)
          ∧ (∀ d', getKey st'.streams 0 = some d' → d'.strongCount = 0 →
              (fireTimer st' 0).channelLog = st'.channelLog)
          ∧ (∀ d', getKey st'.streams 0 = some d' → d'.strongCount ≠ 0 →
              (fireTimer st' 0).channelLog
                = st'.channelLog ++ [ChannelOp.subscribeOp 0 st'.service]))) :=
  ⟨by decide, by decide,
   errorSchedulesWeakReconnect exStErrStream 0 ⟨StatusCode.Unknown, "e"⟩
     ⟨"m", [1], [11], 1, true, true⟩ (by decide) (by decide) rfl⟩

/-- An in-place stream update at a present key makes lookup return the
transformed value. -/
theorem getKey_updStream_self (st : ClientState) (i : Nat)
    (g : StreamData → StreamData) (d : StreamData)
    (h : getKey st.streams i = some d) :
    getKey (updStream st i g).streams i = some (g d) := by
  rw [updStream, h]
  exact getKey_setKey_same st.streams i d (g d) h

/-- Releasing a strong reference decrements the stored strong count. -/
theorem getKey_decRef_self (st : ClientState) (i : Nat) (d : StreamData)
    (h : getKey st.streams i = some d) :
    getKey (decRef st i).streams i
      = some { d with strongCount := d.strongCount - 1 } :=
  getKey_updStream_self st i _ d h

/-- In-place stream updates change nothing but the stream heap entry. -/
theorem updStream_frame (st : ClientState) (i : Nat)
    (g : StreamData → StreamData) :
    (updStream st i g).activeStreams = st.activeStreams
    ∧ (updStream st i g).channelLog = st.channelLog
    ∧ (updStream st i g).errorLog = st.errorLog
    ∧ (updStream st i g).timers = st.timers
    ∧ (updStream st i g).nextId = st.nextId
    ∧ (updStream st i g).streams.map Prod.fst = st.streams.map Prod.fst := by
  rw [updStream]
  split
  · simp [keys_setKey]
  · simp

/-- A stream with a stored identity is equivalent to itself. -/
theorem equivIn_self_of_some (streams : List (Nat × StreamData)) (i : Nat)
    (k : String × QByteArray) (h : streamKeyOf streams i = some k) :
    equivIn streams i i = true := by
  rw [equivIn, h]
  simp

/-- Under the registry invariant, the finished-path scan finds exactly the
finishing stream itself, and erasing it is removing its first occurrence. -/
theorem eraseFirstEquiv_of_pairwise (streams : List (Nat × StreamData))
    (sid : Nat) (k : String × QByteArray) (L : List Nat)
    (hk : streamKeyOf streams sid = some k)
    (hmem : sid ∈ L)
    (hpw : List.Pairwise (fun i j => equivIn streams i j = false) L) :
    eraseFirstEquiv streams k L = (removeFirstNat L sid, some sid) := by
  induction L with
  | nil => simp at hmem
  | cons j rest ih =>
      rcases List.pairwise_cons.mp hpw with ⟨hhead, htail⟩
      by_cases hj : j = sid
      · subst hj
        rw [eraseFirstEquiv, hk]
        simp [removeFirstNat]
      · have hmem' : sid ∈ rest := by
          rcases List.mem_cons.mp hmem with h1 | h2
          · exact absurd h1.symm hj
          · exact h2
        have hne : equivIn streams j sid = false := hhead sid hmem'
        rw [eraseFirstEquiv]
        rcases hsj : streamKeyOf streams j with _ | mj
        · simp only []
          rw [ih hmem' htail]
          simp [removeFirstNat, hj]
        · have hmjk : (mj == k) = false := by
            rw [equivIn, hsj, hk] at hne
            simpa using hne
          simp only [hmjk]
          rw [if_neg (by simp [hmjk])]
          rw [ih hmem' htail]
          simp [removeFirstNat, hj]

/-- Under the registry invariant a stream identifier occurs at most once,
so removing its first occurrence removes it entirely. -/
theorem not_mem_removeFirstNat_of_pairwise (streams : List (Nat × StreamData))
    (sid : Nat) (k : String × QByteArray) (L : List Nat)
    (hk : streamKeyOf streams sid = some k)
    (hpw : List.Pairwise (fun i j => equivIn streams i j = false) L) :
    sid ∉ removeFirstNat L sid := by
  induction L with
  | nil => simp [removeFirstNat]
  | cons j rest ih =>
      rcases List.pairwise_cons.mp hpw with ⟨hhead, htail⟩
      by_cases hj : j = sid
      · subst hj
        rw [removeFirstNat, if_pos rfl]
        intro hmem
        have := hhead j hmem
        rw [equivIn_self_of_some streams j k hk] at this
        exact absurd this (by simp)
      · rw [removeFirstNat, if_neg hj]
        intro hmem
        rcases List.mem_cons.mp hmem with h1 | h2
        · exact hj h1.symm
        · exact ih htail h2

/-- C9: when a live stream's finished connection fires, the stream is
removed from the active registry (and, the registry holding no duplicates,
is afterwards absent from it), both its connections are disconnected, and
three strong references — the registry entry's, the error closure's and the
finished closure's own capture — are released; no channel call or error
notification results. -/
theorem finishedPathRemovesAndDetaches (st : ClientState) (sid : Nat)
    (d : StreamData)
    (hd : getKey st.streams sid = some d)
    (halive : d.strongCount ≠ 0) (hconn : d.finishedConn = true)
    (hmem : sid ∈ st.activeStreams)
    (hreg : RegistryOk st) :
    (fireStreamFinished st sid).activeStreams
      = removeFirstNat st.activeStreams sid
    ∧ sid ∉ (fireStreamFinished st sid).activeStreams
    ∧ getKey (fireStreamFinished st sid).streams sid
        = some { d with errorConn := false, finishedConn := false,
                        strongCount := d.strongCount - 3 }
    ∧ (fireStreamFinished st sid).channelLog = st.channelLog
    ∧ (fireStreamFinished st sid).errorLog = st.errorLog := by
  have hk : streamKeyOf st.streams sid = some (d.method, d.arg) := by
    rw [streamKeyOf, hd]
    rfl
  have herase := eraseFirstEquiv_of_pairwise st.streams sid (d.method, d.arg)
    st.activeStreams hk hmem hreg
  have hff : fireStreamFinished st sid
      = decRef (decRef (updStream
          (decRef { st with activeStreams := removeFirstNat st.activeStreams sid } sid)
          sid (fun d' => { d' with errorConn := false, finishedConn := false })) sid) sid := by
    rw [fireStreamFinished, hd]
    simp only [halive, hconn, and_true, ne_eq, not_false_eq_true, if_true, herase]
  have h1 : getKey ({ st with
      activeStreams := removeFirstNat st.activeStreams sid }).streams sid = some d := hd
  have h2 := getKey_decRef_self _ sid d h1
  have h3 := getKey_updStream_self _ sid
    (fun d' => { d' with errorConn := false, finishedConn := false }) _ h2
  have h4 := getKey_decRef_self _ sid _ h3
  have h5 := getKey_decRef_self _ sid _ h4
  have harith : d.strongCount - 1 - 1 - 1 = d.strongCount - 3 := by omega
  have hactive : (fireStreamFinished st sid).activeStreams
      = removeFirstNat st.activeStreams sid := by
    rw [hff]
    simp [decRef, updStream_frame]
  refine ⟨hactive, ?_, ?_, ?_, ?_⟩
  · rw [hactive]
    exact not_mem_removeFirstNat_of_pairwise st.streams sid (d.method, d.arg)
      st.activeStreams hk hreg
  · rw [hff, h5]
    simp [harith]
  · rw [hff]
    simp [decRef, updStream_frame]
  · rw [hff]
    simp [decRef, updStream_frame]

/-- Witness for C9: graceful termination of the single active stream. -/
theorem finishedPathRemovesAndDetaches_witness :
    getKey exStErrStream.streams 0 = some ⟨"m", [1], [11], 1, true, true⟩
    ∧ 0 ∈ exStErrStream.activeStreams
    ∧ ((fireStreamFinished exStErrStream 0).activeStreams
          = removeFirstNat exStErrStream.activeStreams 0
      ∧ 0 ∉ (fireStreamFinished exStErrStream 0).activeStreams
      ∧ getKey (fireStreamFinished exStErrStream 0).streams 0
          = some ⟨"m", [1], [11], 0, false, false⟩
      ∧ (fireStreamFinished exStErrStream 0).channelLog = exStErrStream.channelLog
      ∧ (fireStreamFinished exStErrStream 0).errorLog = exStErrStream.errorLog) :=
  ⟨by decide, by decide,
   finishedPathRemovesAndDetaches exStErrStream 0 ⟨"m", [1], [11], 1, true, true⟩
     (by decide) (by decide) rfl (by decide) (by simp [RegistryOk, exStErrStream])⟩

/-- States agreeing on streams and registry with a no-smaller counter
inherit the invariant. -/
theorem facadeInv_of_le (st st' : ClientState)
    (hs : st'.streams = st.streams)
    (ha : st'.activeStreams = st.activeStreams)
    (hn : st.nextId ≤ st'.nextId)
    (h : FacadeInv st) : FacadeInv st' := by
  rcases h with ⟨h1, h2, h3⟩
  refine ⟨?_, ?_, ?_⟩
  · intro k hk
    rw [hs] at hk
    exact Nat.lt_of_lt_of_le (h1 k hk) hn
  · intro i hi
    rw [ha] at hi
    exact Nat.lt_of_lt_of_le (h2 i hi) hn
  · rw [RegistryOk, hs, ha]
    exact h3

/-- The registry invariant transports along pointwise-equal stream
identities. -/
theorem registryOk_transport (st st' : ClientState)
    (hs : ∀ i, streamKeyOf st'.streams i = streamKeyOf st.streams i)
    (ha : st'.activeStreams = st.activeStreams)
    (h : RegistryOk st) : RegistryOk st' := by
  rw [RegistryOk, ha]
  refine List.Pairwise.imp ?_ h
  intro i j hij
  rw [equivIn, hs i, hs j]
  rw [equivIn] at hij
  exact hij

theorem streamKeyOf_updStream (st : ClientState) (k : Nat)
    (g : StreamData → StreamData)
    (hg : ∀ d, (g d).method = d.method ∧ (g d).arg = d.arg) (i : Nat) :
    streamKeyOf (updStream st k g).streams i = streamKeyOf st.streams i := by
  rw [updStream]
  cases hk : getKey st.streams k with
  | none => rfl
  | some d =>
      exact streamKeyOf_setKey_preserve st.streams k d (g d) hk (hg d).1 (hg d).2 i

theorem facadeInv_updStream (st : ClientState) (k : Nat)
    (g : StreamData → StreamData)
    (hg : ∀ d, (g d).method = d.method ∧ (g d).arg = d.arg)
    (h : FacadeInv st) : FacadeInv (updStream st k g) := by
  rcases h with ⟨h1, h2, h3⟩
  obtain ⟨ha, _, _, _, hn, hk⟩ := updStream_frame st k g
  refine ⟨?_, ?_, ?_⟩
  · intro x hx
    rw [hk] at hx
    rw [hn]
    exact h1 x hx
  · intro i hi
    rw [ha] at hi
    rw [hn]
    exact h2 i hi
  · exact registryOk_transport st (updStream st k g)
      (streamKeyOf_updStream st k g hg) ha h3

theorem facadeInv_decRef (st : ClientState) (i : Nat)
    (h : FacadeInv st) : FacadeInv (decRef st i) :=
  facadeInv_updStream st i _ (fun _ => ⟨rfl, rfl⟩) h

theorem facadeInv_activeSub (st : ClientState) (L : List Nat)
    (hsub : List.Sublist L st.activeStreams)
    (h : FacadeInv st) : FacadeInv { st with activeStreams := L } := by
  rcases h with ⟨h1, h2, h3⟩
  refine ⟨h1, ?_, ?_⟩
  · intro i hi
    exact h2 i (hsub.subset hi)
  · exact h3.sublist hsub

theorem eraseFirstEquiv_sublist (streams : List (Nat × StreamData))
    (ma : String × QByteArray) (L : List Nat) :
    List.Sublist (eraseFirstEquiv streams ma L).1 L := by
  induction L with
  | nil => simp [eraseFirstEquiv]
  | cons j rest ih =>
      rw [eraseFirstEquiv]
      cases streamKeyOf streams j with
      | none => exact ih.cons₂ j
      | some mb =>
          by_cases hb : (mb == ma) = true
          · simp only [hb, if_true]
            exact List.sublist_cons_self j rest
          · simp only [hb, if_false]
            exact ih.cons₂ j

theorem pairwise_imp_mem {α : Type} {R S : α → α → Prop} {l : List α}
    (hl : ∀ a ∈ l, ∀ b ∈ l, R a b → S a b) (h : l.Pairwise R) :
    l.Pairwise S := by
  induction h with
  | nil => exact List.Pairwise.nil
  | @cons a l' hr hp ih =>
      refine List.Pairwise.cons ?_ (ih ?_)
      · intro b hb
        exact hl a (by simp) b (by simp [hb]) (hr b hb)
      · intro x hx y hy hxy
        exact hl x (by simp [hx]) y (by simp [hy]) hxy

theorem facadeInv_emitError (st : ClientState) (s : QGrpcStatus)
    (h : FacadeInv st) : FacadeInv (emitError st s) :=
  facadeInv_of_le st (emitError st s) rfl rfl (Nat.le_refl _) h

theorem facadeInv_attach (st : ClientState) (ct : Nat) (ch : GrpcChannel)
    (h : FacadeInv st) :
    FacadeInv (match attachChannel st ct ch with
               | Except.ok st' => st'
               | Except.error _ => st) := by
  rw [attachChannel]
  by_cases hc : ch.thread ≠ ct
  · rw [if_pos hc]
    exact h
  · rw [if_neg hc]
    exact facadeInv_of_le st _ rfl rfl (Nat.le_refl _) h

theorem facadeInv_callBlocking (st : ClientState) (ct : Nat) (m : String)
    (a ret : QByteArray) (h : FacadeInv st) :
    FacadeInv (callBlocking st ct m a ret).1 := by
  rw [callBlocking_relay, callBlocking]
  simp only [ne_eq, not_true_eq_false, reduceDIte]
  split
  · split
    · exact facadeInv_of_le st _ rfl rfl (Nat.le_refl _) h
    · exact facadeInv_of_le st _ rfl rfl (Nat.le_refl _) h
  · exact facadeInv_of_le st _ rfl rfl (Nat.le_refl _) h

theorem facadeInv_callAsync (st : ClientState) (ct : Nat) (m : String)
    (a : QByteArray) (h : FacadeInv st) :
    FacadeInv (callAsync st ct m a).1 := by
  rw [callAsync_relay, callAsync]
  simp only [ne_eq, not_true_eq_false, reduceDIte]
  split
  · exact facadeInv_of_le st _ rfl rfl (Nat.le_succ _) h
  · exact facadeInv_of_le st _ rfl rfl (Nat.le_refl _) h

theorem facadeInv_fireStreamError (st : ClientState) (sid : Nat)
    (s : QGrpcStatus) (h : FacadeInv st) :
    FacadeInv (fireStreamError st sid s) := by
  rw [fireStreamError]
  split
  · split
    · exact facadeInv_of_le st _ rfl rfl (Nat.le_refl _) h
    · exact h
  · exact h

theorem facadeInv_fireTimer (st : ClientState) (sid : Nat)
    (h : FacadeInv st) : FacadeInv (fireTimer st sid) := by
  simp only [fireTimer]
  split
  · split
    · split
      · exact facadeInv_of_le st _ rfl rfl (Nat.le_refl _) h
      · exact facadeInv_of_le st _ rfl rfl (Nat.le_refl _) h
    · exact facadeInv_of_le st _ rfl rfl (Nat.le_refl _) h
  · exact h

theorem facadeInv_fireReplyError (st : ClientState) (rid : Nat)
    (s : QGrpcStatus) (h : FacadeInv st) :
    FacadeInv (fireReplyError st rid s) := by
  rw [fireReplyError]
  split
  · split
    · exact facadeInv_of_le st _ rfl rfl (Nat.le_refl _) h
    · exact h
  · exact h

theorem facadeInv_fireReplyFinished (st : ClientState) (rid : Nat)
    (h : FacadeInv st) : FacadeInv (fireReplyFinished st rid) := by
  rw [fireReplyFinished]
  split
  · split
    · exact facadeInv_of_le st _ rfl rfl (Nat.le_refl _) h
    · exact h
  · exact h

theorem facadeInv_fireStreamFinished (st : ClientState) (sid : Nat)
    (h : FacadeInv st) : FacadeInv (fireStreamFinished st sid) := by
  rw [fireStreamFinished]
  cases hd : getKey st.streams sid with
  | none => exact h
  | some d =>
      simp only []
      by_cases hcond : d.strongCount ≠ 0 ∧ d.finishedConn = true
      case neg =>
        rw [if_neg hcond]
        exact h
      case pos =>
        rw [if_pos hcond]
        have h1 : FacadeInv { st with
            activeStreams := (eraseFirstEquiv st.streams (d.method, d.arg) st.activeStreams).1 } :=
          facadeInv_activeSub st _ (eraseFirstEquiv_sublist st.streams (d.method, d.arg) st.activeStreams) h
        have h2 : FacadeInv (match (eraseFirstEquiv st.streams (d.method, d.arg) st.activeStreams).2 with
            | some j => decRef { st with
                activeStreams := (eraseFirstEquiv st.streams (d.method, d.arg) st.activeStreams).1 } j
            | none => { st with
                activeStreams := (eraseFirstEquiv st.streams (d.method, d.arg) st.activeStreams).1 }) := by
          cases (eraseFirstEquiv st.streams (d.method, d.arg) st.activeStreams).2 with
          | none => exact h1
          | some j => exact facadeInv_decRef _ j h1
        exact facadeInv_decRef _ sid (facadeInv_decRef _ sid
          (facadeInv_updStream _ sid
            (fun d' => { d' with errorConn := false, finishedConn := false })
            (fun _ => ⟨rfl, rfl⟩) h2))

theorem facadeInv_subscribe (st : ClientState) (ct : Nat) (m : String)
    (a : QByteArray) (hdl : Nat) (h : FacadeInv st) :
    FacadeInv (subscribe st ct m a hdl).1 := by
  rw [subscribe_relay, subscribe]
  simp only [ne_eq, not_true_eq_false, reduceDIte]
  cases hch : st.channel with
  | none => exact facadeInv_emitError st _ h
  | some ch =>
      simp only []
      cases hfind : findEquiv st.streams (m, a) st.activeStreams with
      | some j =>
          simp only []
          exact facadeInv_updStream st j
            (fun d => { d with handlers := d.handlers ++ [hdl] })
            (fun _ => ⟨rfl, rfl⟩) h
      | none =>
          simp only []
          rcases h with ⟨h1, h2, h3⟩
          have hnone : getKey st.streams st.nextId = none :=
            getKey_none_of_bound st.streams st.nextId h1
          have hkeep : ∀ i, i ≠ st.nextId →
              streamKeyOf (st.streams ++
                [(st.nextId, ⟨m, a, [hdl], 4, true, true⟩)]) i
                = streamKeyOf st.streams i := by
            intro i hi
            rw [streamKeyOf, streamKeyOf, getKey_append_ne st.streams st.nextId i _ hi]
          have hnew : streamKeyOf (st.streams ++
              [(st.nextId, ⟨m, a, [hdl], 4, true, true⟩)]) st.nextId
              = some (m, a) := by
            rw [streamKeyOf, getKey_append_self st.streams st.nextId _ hnone]
            rfl
          refine ⟨?_, ?_, ?_⟩
          · intro k hk
            simp only [List.map_append, List.map_cons, List.map_nil,
              List.mem_append, List.mem_cons, List.not_mem_nil, or_false] at hk
            rcases hk with hk | hk
            · exact Nat.lt_succ_of_lt (h1 k hk)
            · rw [hk]
              exact Nat.lt_succ_self _
          · intro i hi
            simp only [List.mem_append, List.mem_cons, List.not_mem_nil,
              or_false] at hi
            rcases hi with hi | hi
            · exact Nat.lt_succ_of_lt (h2 i hi)
            · rw [hi]
              exact Nat.lt_succ_self _
          · rw [RegistryOk]
            refine List.pairwise_append.mpr ⟨?_, ?_, ?_⟩
            · refine pairwise_imp_mem ?_ h3
              intro i hi j hj hij
              have hin : i ≠ st.nextId := Nat.ne_of_lt (h2 i hi)
              have hjn : j ≠ st.nextId := Nat.ne_of_lt (h2 j hj)
              rw [equivIn, hkeep i hin, hkeep j hjn]
              rw [equivIn] at hij
              exact hij
            · exact List.pairwise_singleton _ _
            · intro i hi b hb
              simp only [List.mem_cons, List.not_mem_nil, or_false] at hb
              rw [hb]
              have hin : i ≠ st.nextId := Nat.ne_of_lt (h2 i hi)
              rw [equivIn, hkeep i hin, hnew]
              cases hsk : streamKeyOf st.streams i with
              | none => rfl
              | some mb =>
                  exact findEquiv_none_spec st.streams (m, a) st.activeStreams
                    hfind i hi mb hsk

/-- Every single facade operation preserves the invariant. -/
theorem step_inv (st : ClientState) (op : FacadeOp) (h : FacadeInv st) :
    FacadeInv (step st op) := by
  cases op with
  | attach ct ch => exact facadeInv_attach st ct ch h
  | callB ct m a r => exact facadeInv_callBlocking st ct m a r h
  | callA ct m a => exact facadeInv_callAsync st ct m a h
  | sub ct m a hd => exact facadeInv_subscribe st ct m a hd h
  | strError sid s => exact facadeInv_fireStreamError st sid s h
  | strFinished sid => exact facadeInv_fireStreamFinished st sid h
  | timerFire sid => exact facadeInv_fireTimer st sid h
  | release sid => exact facadeInv_decRef st sid h
  | replyErr rid s => exact facadeInv_fireReplyError st rid s h
  | replyFin rid => exact facadeInv_fireReplyFinished st rid h

/-- Operation sequences preserve the invariant. -/
theorem run_inv (ops : List FacadeOp) (st : ClientState) (h : FacadeInv st) :
    FacadeInv (run st ops) := by
  induction ops generalizing st with
  | nil => exact h
  | cons op rest ih => exact ih (step st op) (step_inv st op h)

/-- The freshly constructed facade satisfies the invariant. -/
theorem facadeInv_initial (t : Nat) (s : String) (n : Nat) :
    FacadeInv (initialState t s n) := by
  refine ⟨?_, ?_, ?_⟩
  · intro k hk
    simp [initialState] at hk
  · intro i hi
    simp [initialState] at hi
  · rw [RegistryOk]
    simp [initialState]

/-- C3: starting from a freshly constructed facade, after any sequence of
facade operations (entry-point invocations from any threads, stream and
reply completion events, timer expiries and reference releases) the active
registry never contains two equivalent stream handles: the registry
invariant holds in every reachable state. -/
theorem activeStreamsNeverHoldsEquivalentPair (t : Nat) (s : String) (n : Nat)
    (ops : List FacadeOp) :
    RegistryOk (run (initialState t s n) ops) :=
  (run_inv ops (initialState t s n) (facadeInv_initial t s n)).2.2
